import Mathlib

/-!
Verification of the scheduling and routing core of rusty-workers-proxy
(src/rusty-workers-proxy/src/sched.rs and config.rs), via a shallow
embedding: Rust's BTreeMap is modelled as an association list kept sorted
strictly ascending by key (Rust String order is byte-lexicographic UTF-8,
which coincides with the character-lexicographic order used here),
monotonic Instants are Nat milliseconds, and the RPC surface (spawn_worker,
fetch) is driven by explicit oracles while the calls actually issued are
recorded in a trace.
-/

namespace RustyWorkers

/-- AppId (config.rs line 41): newtype over String, ordered as its string. -/
abbrev AppId := String

/-- RuntimeId (rusty_workers::types): opaque string identifier of a runtime. -/
abbrev RuntimeId := String

/-- WorkerHandle (rusty_workers::types): opaque handle returned by spawn_worker. -/
abbrev WorkerHandle := String

/-- Modelled from the spec: WorkerConfiguration (rusty_workers::types) is opaque
to the scheduler and forwarded verbatim to runtimes; an abstract wrapper. -/
structure WorkerConfiguration where
  blob : String
deriving DecidableEq, Repr

/-- Modelled from the spec: GenericError (rusty_workers::types) distinguishes
at least NoSuchWorker from all other variants; sched.rs only matches on the
NoSuchWorker constructor. -/
inductive GenericError where
  | NoSuchWorker
  | otherError (tag : String)
deriving DecidableEq, Repr

/-- SchedError (sched.rs lines 17-30). -/
inductive SchedError where
  | NoAvailableInstance
  | NoRouteMapping
  | RequestBodyTooLarge
  | RequestFailedAfterRetries
deriving DecidableEq, Repr

/-- AppRoute (config.rs lines 33-37). The second field is the source's
path_prefix field, renamed here. -/
structure AppRoute where
  domain : String
  pathPre : String
deriving DecidableEq, Repr

/-- AppConfig (config.rs lines 25-31). script is the script URL. -/
structure AppConfig where
  id : AppId
  routes : List AppRoute
  script : String
  worker : WorkerConfiguration
deriving DecidableEq, Repr

/-- Config (config.rs lines 6-19); runtime_cluster (socket addresses, used
only by runtime discovery) is not modelled. -/
structure Config where
  apps : List AppConfig
  instance_expiration_time_ms : Nat
  request_timeout_ms : Nat
  max_request_body_size_bytes : Nat
deriving Repr

/-- ReadyInstance (sched.rs lines 72-85). The tarpc client clone is identified
by the runtime id it points at; last_active is a monotonic time in ms. -/
structure ReadyInstance where
  rtid : RuntimeId
  last_active : Nat
  handle : WorkerHandle
deriving DecidableEq, Repr

/-- AppState (sched.rs lines 56-69); the ready_instances mutex content. -/
structure AppState where
  id : AppId
  config : WorkerConfiguration
  script : String
  ready_instances : List ReadyInstance
deriving DecidableEq, Repr

/-- RtState (sched.rs lines 46-54); the client is implicit, load is the
AtomicU16 reading. -/
structure RtState where
  load : Nat
deriving DecidableEq, Repr

/-! BTreeMap model: association lists, lookup by key equality; a map built by
the code is kept sorted strictly ascending by key, mirroring BTreeMap
iteration order. -/

/-- BTreeMap::get. -/
def mapGet {α : Type} (k : String) : List (String × α) → Option α
  | [] => none
  | kv :: rest => if kv.1 = k then some kv.2 else mapGet k rest

/-- BTreeMap::insert: replace an equal key, otherwise insert in order. -/
def mapInsert {α : Type} (k : String) (v : α) : List (String × α) → List (String × α)
  | [] => [(k, v)]
  | kv :: rest =>
    if k < kv.1 then (k, v) :: kv :: rest
    else if k = kv.1 then (k, v) :: rest
    else kv :: mapInsert k v rest

/-- Keys strictly ascending: the well-formedness of a BTreeMap model. -/
def mapSorted {α : Type} (m : List (String × α)) : Prop :=
  m.Pairwise (fun a b => a.1 < b.1)

/-! Router data (sched.rs line 43): domain to (path-prefix to AppId). -/

abbrev PrefMap := List (String × AppId)

abbrev RouteTbl := List (String × PrefMap)

/-- Rust str::starts_with on UTF-8 strings. -/
def strStartsWith (s p : String) : Bool := p.data.isPrefixOf s.data

/-- Characters before the first colon. -/
def beforeColonAux : List Char → List Char
  | [] => []
  | c :: rest => if c = ':' then [] else c :: beforeColonAux rest

/-- Rust host.split(":").nth(0).unwrap() (sched.rs line 163): the substring
before the first colon; total because split always yields a first element. -/
def beforeColon (s : String) : String := String.mk (beforeColonAux s.data)

/-- A header value as hyper sees it: UTF-8 text or bytes to_str rejects. -/
inductive HeaderBytes where
  | utf8 (s : String)
  | nonUtf8
deriving DecidableEq, Repr

/-- Host header extraction (sched.rs line 163):
headers.get("host").and_then(to_str().ok()).unwrap_or(""). -/
def hostRaw : Option HeaderBytes → String
  | some (HeaderBytes.utf8 s) => s
  | some HeaderBytes.nonUtf8 => ""
  | none => ""

/-- Reverse-order first match over a per-domain map (sched.rs lines 171-177):
iterate submappings.iter().rev(), return the first value whose key is a
string-prefix of the path. -/
def matchRoute (sub : PrefMap) (path : String) : Option AppId :=
  match sub.reverse.find? (fun kv => strStartsWith path kv.1) with
  | some kv => some kv.2
  | none => none

/-! Body drain (sched.rs lines 191-206): fold over the body chunks, recording
RequestBodyTooLarge when a chunk would push the buffer past the limit, and
extending the buffer regardless. Bytes are modelled as Nat. -/

/-- One for_each iteration on an Ok chunk (sched.rs lines 195-200). -/
def drainStep (maxB : Nat) (acc : List Nat × Option SchedError) (chunk : List Nat) :
    List Nat × Option SchedError :=
  let e := if acc.1.length + chunk.length > maxB then some SchedError.RequestBodyTooLarge else acc.2
  (acc.1 ++ chunk, e)

/-- The whole drain: full_body starts empty, body_error starts Ok. -/
def drainBody (maxB : Nat) (chunks : List (List Nat)) : List Nat × Option SchedError :=
  chunks.foldl (drainStep maxB) ([], none)

/-! Instance pool (sched.rs lines 87-145). -/

/-- ReadyInstance::is_usable (sched.rs lines 91-98): false when
now - last_active exceeds instance_expiration_time_ms; Instant
duration_since is zero when last_active is in the future, as is Nat
subtraction. -/
def is_usable (inst : ReadyInstance) (config : Config) (now : Nat) : Bool :=
  if now - inst.last_active > config.instance_expiration_time_ms then false else true

/-- The while-let dequeue loop of get_instance (sched.rs lines 113-119):
pop from the front, discard unusable instances, stamp last_active on the
first usable one. Returns the instance found (if any) and the remaining
queue. -/
def dequeueUsable (config : Config) (now : Nat) :
    List ReadyInstance → Option ReadyInstance × List ReadyInstance
  | [] => (none, [])
  | inst :: rest =>
    if is_usable inst config now then (some { inst with last_active := now }, rest)
    else dequeueUsable config now rest

/-- Rust Iterator::min_by_key over the clients BTreeMap (sched.rs line 126):
the first element attaining the minimum load, in key order. -/
def selectRuntime : List (RuntimeId × RtState) → Option (RuntimeId × RtState)
  | [] => none
  | x :: rest =>
    match selectRuntime rest with
    | none => some x
    | some y => if y.2.load < x.2.load then some y else some x

/-- An RPC issued against a runtime, as recorded in the trace. -/
inductive RpcCall where
  | spawnCall (rtid : RuntimeId) (appId : AppId) (cfg : WorkerConfiguration) (script : String)
  | fetchCall (rtid : RuntimeId) (handle : WorkerHandle)
deriving DecidableEq, Repr

/-- Result of AppState::get_instance. -/
inductive GetRes where
  | got (inst : ReadyInstance)
  | failedNoInstance
  | failedSpawnRpc
deriving DecidableEq, Repr

/-- AppState::get_instance (sched.rs lines 111-145): dequeue a usable cached
instance; otherwise select the least-loaded registered runtime and issue
spawn_worker(app id, app config, app script) against it, the reply given by
the spawnReply oracle (none models a transport or application error
propagated by the double question mark). Returns the result, the queue as
left behind, and the RPC calls issued. -/
def get_instance (appId : AppId) (appCfg : WorkerConfiguration) (script : String)
    (config : Config) (clients : List (RuntimeId × RtState)) (queue : List ReadyInstance)
    (now : Nat) (spawnReply : Option WorkerHandle) :
    GetRes × List ReadyInstance × List RpcCall :=
  match dequeueUsable config now queue with
  | (some inst, rest) => (GetRes.got inst, rest, [])
  | (none, rest) =>
    match selectRuntime clients with
    | none => (GetRes.failedNoInstance, rest, [])
    | some (rtid, _) =>
      match spawnReply with
      | none => (GetRes.failedSpawnRpc, rest, [RpcCall.spawnCall rtid appId appCfg script])
      | some h => (GetRes.got (ReadyInstance.mk rtid now h), rest,
          [RpcCall.spawnCall rtid appId appCfg script])

/-! Request forwarding (sched.rs lines 159-285). -/

/-- What one fetch RPC came back with: a transport-level tarpc error, an
application-level GenericError, or a response (status and body). -/
inductive FetchReply where
  | transportError
  | appError (e : GenericError)
  | success (status : Nat) (body : String)
deriving DecidableEq, Repr

/-- How handle_request ends: a worker response or an error; spawnRpcError is
an error propagated out of spawn_worker by the question marks. -/
inductive Outcome where
  | response (status : Nat) (body : String)
  | failure (e : SchedError)
  | spawnRpcError
deriving DecidableEq, Repr

/-- The mutable state the retry loop reads and writes: the clients registry
and this app's ready queue. -/
structure LoopState where
  clients : List (RuntimeId × RtState)
  queue : List ReadyInstance
deriving DecidableEq, Repr

/-- BTreeMap::remove of a runtime (sched.rs line 236). -/
def removeClient (rtid : RuntimeId) (clients : List (RuntimeId × RtState)) :
    List (RuntimeId × RtState) :=
  clients.filter (fun kv => kv.1 != rtid)

/-- Outcome of one iteration of the for-loop body: the loop either finishes
with an outcome or continues to the next attempt. -/
inductive StepResult where
  | finished (r : Outcome) (st : LoopState)
  | again (st : LoopState)
deriving DecidableEq, Repr

/-- One iteration of the retry loop (sched.rs lines 223-282): get an
instance; on its failure return the propagated error; issue fetch; a
transport error drops the whole runtime and continues without pooling;
GenericError::NoSuchWorker continues without pooling; any other application
error breaks the loop, which then lands on RequestFailedAfterRetries; a
response pools the instance at the back and is returned. -/
def attemptStep (appId : AppId) (appCfg : WorkerConfiguration) (script : String)
    (config : Config) (st : LoopState) (now : Nat)
    (spawnReply : Option WorkerHandle) (fetchReply : FetchReply) :
    StepResult × List RpcCall :=
  match get_instance appId appCfg script config st.clients st.queue now spawnReply with
  | (GetRes.failedNoInstance, q, tr) =>
      (StepResult.finished (Outcome.failure SchedError.NoAvailableInstance)
        (LoopState.mk st.clients q), tr)
  | (GetRes.failedSpawnRpc, q, tr) =>
      (StepResult.finished Outcome.spawnRpcError (LoopState.mk st.clients q), tr)
  | (GetRes.got inst, q, tr) =>
    let tr2 := tr ++ [RpcCall.fetchCall inst.rtid inst.handle]
    match fetchReply with
    | FetchReply.transportError =>
        (StepResult.again (LoopState.mk (removeClient inst.rtid st.clients) q), tr2)
    | FetchReply.appError GenericError.NoSuchWorker =>
        (StepResult.again (LoopState.mk st.clients q), tr2)
    | FetchReply.appError (GenericError.otherError _) =>
        (StepResult.finished (Outcome.failure SchedError.RequestFailedAfterRetries)
          (LoopState.mk st.clients q), tr2)
    | FetchReply.success status body =>
        (StepResult.finished (Outcome.response status body)
          (LoopState.mk st.clients (q ++ [inst])), tr2)

/-- The for-loop over 0..3 (sched.rs lines 223-284): run attempts while they
ask to continue; falling off the end yields RequestFailedAfterRetries. The
oracles are indexed by the attempt number. -/
def retryLoop (appId : AppId) (appCfg : WorkerConfiguration) (script : String)
    (config : Config) (now : Nat)
    (spawnO : Nat → Option WorkerHandle) (fetchO : Nat → FetchReply) :
    Nat → Nat → LoopState → Outcome × LoopState × List RpcCall
  | 0, _, st => (Outcome.failure SchedError.RequestFailedAfterRetries, st, [])
  | Nat.succ n, idx, st =>
    match attemptStep appId appCfg script config st now (spawnO idx) (fetchO idx) with
    | (StepResult.finished r st2, tr) => (r, st2, tr)
    | (StepResult.again st2, tr) =>
      match retryLoop appId appCfg script config now spawnO fetchO n (idx + 1) st2 with
      | (r, st3, tr2) => (r, st3, tr ++ tr2)

/-- An inbound request as the handler sees it: the raw host header, the URI
path, and the body chunks the stream delivers. -/
structure RequestModel where
  hostHeader : Option HeaderBytes
  path : String
  bodyChunks : List (List Nat)

/-- The scheduler state a request executes against (sched.rs lines 38-44). -/
structure SchedState where
  config : Config
  worker_config : WorkerConfiguration
  clients : List (RuntimeId × RtState)
  apps : List (AppId × AppState)
  route_mappings : RouteTbl

/-- Scheduler::handle_request (sched.rs lines 159-285): normalize the host,
resolve domain then path prefix (either failing with NoRouteMapping), drain
the body, report a body error, look up the AppState (absent is
NoRouteMapping), then run the retry loop. Also returns the RPC calls
issued. Translation of headers and of the worker response is abstracted. -/
def handle_request (sched : SchedState) (req : RequestModel) (now : Nat)
    (spawnO : Nat → Option WorkerHandle) (fetchO : Nat → FetchReply) :
    Outcome × List RpcCall :=
  let host := beforeColon (hostRaw req.hostHeader)
  match mapGet host sched.route_mappings with
  | none => (Outcome.failure SchedError.NoRouteMapping, [])
  | some sub =>
    match matchRoute sub req.path with
    | none => (Outcome.failure SchedError.NoRouteMapping, [])
    | some appid =>
      match (drainBody sched.config.max_request_body_size_bytes req.bodyChunks).2 with
      | some e => (Outcome.failure e, [])
      | none =>
        match mapGet appid sched.apps with
        | none => (Outcome.failure SchedError.NoRouteMapping, [])
        | some app =>
          match retryLoop appid app.config app.script sched.config now spawnO fetchO 3 0
              (LoopState.mk sched.clients app.ready_instances) with
          | (r, _, tr) => (r, tr)

/-! Reconciliation (sched.rs lines 371-473). -/

/-- The collect() into BTreeMap of (id, app config) pairs (sched.rs line
377); a later duplicate id overwrites an earlier one. -/
def collectAppsConfig (apps : List AppConfig) : List (AppId × AppConfig) :=
  apps.foldl (fun m a => mapInsert a.id a m) []

/-- One unseen app's fetch and AppState construction (sched.rs lines
393-431): the script body comes from the fetch oracle (none models a non-2xx
status or a transport error, both of which skip the app); the state stores
the scheduler-wide worker configuration (line 426) and an empty queue. -/
def mkUnseenState (wc : WorkerConfiguration) (fetchScript : String → Option String)
    (kv : AppId × AppConfig) : Option (AppId × AppState) :=
  (fetchScript kv.2.script).map (fun body => (kv.1, AppState.mk kv.1 wc body []))

/-- The insertion loop over newly built apps (sched.rs lines 437-439). -/
def insertAll (items : List (AppId × AppState)) (m : List (AppId × AppState)) :
    List (AppId × AppState) :=
  items.foldl (fun acc kv => mapInsert kv.1 kv.2 acc) m

/-- routing_table.entry(domain).or_insert(new).insert(path prefix, id)
(sched.rs lines 459-460). -/
def insertRoute (tbl : RouteTbl) (dom p : String) (id : AppId) : RouteTbl :=
  match mapGet dom tbl with
  | none => mapInsert dom [(p, id)] tbl
  | some sub => mapInsert dom (mapInsert p id sub) tbl

/-- Route table rebuild (sched.rs lines 455-462): iterate the new app map in
key order, inserting every route of every app. -/
def buildRoutingTable (nac : List (AppId × AppConfig)) : RouteTbl :=
  nac.foldl (fun tbl kv =>
    kv.2.routes.foldl (fun t r => insertRoute t r.domain r.pathPre kv.1) tbl) []

/-- Scheduler::populate_config (sched.rs lines 371-473): compute the new app
map, find ids unseen in the live apps table, fetch their scripts (failures
skip the app), insert the built states, drop apps absent from the new
config, and rebuild the routing table from the whole new app map. Returns
the new apps table and the new routing table. -/
def populateConfig (wc : WorkerConfiguration) (config : Config)
    (oldApps : List (AppId × AppState)) (fetchScript : String → Option String) :
    List (AppId × AppState) × RouteTbl :=
  let nac := collectAppsConfig config.apps
  let unseen := nac.filter (fun kv => (mapGet kv.1 oldApps).isNone)
  let unseenApps := unseen.filterMap (mkUnseenState wc fetchScript)
  let apps1 := insertAll unseenApps oldApps
  let apps2 := apps1.filter (fun kv => (mapGet kv.1 nac).isSome)
  (apps2, buildRoutingTable nac)

/-! Error to response mapping (sched.rs lines 476-488). -/

/-- The status match of SchedError::build_response (sched.rs lines 478-483). -/
def statusOf : SchedError → Nat
  | SchedError.NoAvailableInstance => 503
  | SchedError.NoRouteMapping => 502
  | SchedError.RequestBodyTooLarge => 413
  | SchedError.RequestFailedAfterRetries => 503

/-- Modelled from hyper: StatusCode::canonical_reason for the statuses
build_response can produce. -/
def canonicalReason (status : Nat) : Option String :=
  if status = 503 then some "Service Unavailable"
  else if status = 502 then some "Bad Gateway"
  else if status = 413 then some "Payload Too Large"
  else none

/-- SchedError::build_response (sched.rs lines 477-487): the mapped status
and a body of its canonical reason phrase. -/
def build_response (e : SchedError) : Nat × String :=
  let status := statusOf e
  (status, (canonicalReason status).getD "unknown error")

/-- Count of fetch RPCs in a trace. -/
def isFetchCall : RpcCall → Bool
  | RpcCall.fetchCall _ _ => true
  | _ => false

/-- Number of fetch attempts a trace records. -/
def countFetch (tr : List RpcCall) : Nat := (tr.filter isFetchCall).length

/-! Association-list lemmas. -/

theorem mapGet_mem {α : Type} (k : String) (v : α) :
    ∀ (m : List (String × α)), mapGet k m = some v → (k, v) ∈ m := by
  intro m
  induction m with
  | nil => intro h; simp [mapGet] at h
  | cons kv rest ih =>
    intro h
    by_cases hk : kv.1 = k
    · rw [mapGet, if_pos hk] at h
      injection h with h
      subst h
      subst hk
      simp
    · rw [mapGet, if_neg hk] at h
      exact List.mem_cons_of_mem _ (ih h)

theorem mem_mapGet_ne_none {α : Type} (k : String) (v : α) :
    ∀ (m : List (String × α)), (k, v) ∈ m → mapGet k m ≠ none := by
  intro m
  induction m with
  | nil => intro h; simp at h
  | cons kv rest ih =>
    intro h
    rcases List.mem_cons.mp h with h1 | h1
    · rw [mapGet]
      have : kv.1 = k := by rw [← h1]
      rw [if_pos this]
      simp
    · rw [mapGet]
      by_cases hk : kv.1 = k
      · rw [if_pos hk]; simp
      · rw [if_neg hk]; exact ih h1

theorem mapGet_mapInsert {α : Type} (k k' : String) (v : α) :
    ∀ (m : List (String × α)),
      mapGet k (mapInsert k' v m) = if k' = k then some v else mapGet k m := by
  intro m
  induction m with
  | nil => simp [mapGet, mapInsert]
  | cons kv rest ih =>
    rw [mapInsert]
    by_cases hlt : k' < kv.1
    · rw [if_pos hlt, mapGet]
    · rw [if_neg hlt]
      by_cases heq : k' = kv.1
      · rw [if_pos heq]
        by_cases hk : k' = k
        · have hkv : kv.1 = k := heq ▸ hk
          simp [mapGet, hk, hkv]
        · have hkv : ¬ kv.1 = k := fun hc => hk (heq.trans hc)
          simp [mapGet, hk, hkv]
      · rw [if_neg heq]
        by_cases hk : kv.1 = k
        · have hk' : ¬ k' = k := fun hc => heq (hc.trans hk.symm)
          simp [mapGet, hk, hk', ih]
        · simp [mapGet, hk, ih]

theorem mem_mapInsert {α : Type} (k : String) (v : α) :
    ∀ (m : List (String × α)) (x : String × α),
      x ∈ mapInsert k v m → x = (k, v) ∨ x ∈ m := by
  intro m
  induction m with
  | nil => intro x hx; simp [mapInsert] at hx; exact Or.inl hx
  | cons kv rest ih =>
    intro x hx
    rw [mapInsert] at hx
    by_cases hlt : k < kv.1
    · rw [if_pos hlt] at hx
      rcases List.mem_cons.mp hx with h | h
      · exact Or.inl h
      · exact Or.inr h
    · rw [if_neg hlt] at hx
      by_cases heq : k = kv.1
      · rw [if_pos heq] at hx
        rcases List.mem_cons.mp hx with h | h
        · exact Or.inl h
        · exact Or.inr (List.mem_cons_of_mem _ h)
      · rw [if_neg heq] at hx
        rcases List.mem_cons.mp hx with h | h
        · exact Or.inr (h ▸ List.mem_cons_self kv rest)
        · rcases ih x h with h1 | h1
          · exact Or.inl h1
          · exact Or.inr (List.mem_cons_of_mem _ h1)

theorem mapInsert_sorted {α : Type} (k : String) (v : α) :
    ∀ (m : List (String × α)), mapSorted m → mapSorted (mapInsert k v m) := by
  intro m
  induction m with
  | nil => intro _; simp [mapInsert, mapSorted]
  | cons kv rest ih =>
    intro hs
    rw [mapSorted, List.pairwise_cons] at hs
    obtain ⟨hhead, htail⟩ := hs
    rw [mapInsert]
    by_cases hlt : k < kv.1
    · rw [if_pos hlt]
      rw [mapSorted, List.pairwise_cons]
      constructor
      · intro y hy
        rcases List.mem_cons.mp hy with h | h
        · rw [h]; exact hlt
        · exact lt_trans hlt (hhead y h)
      · rw [mapSorted] at *
        rw [List.pairwise_cons]
        exact ⟨hhead, htail⟩
    · rw [if_neg hlt]
      by_cases heq : k = kv.1
      · rw [if_pos heq]
        rw [mapSorted, List.pairwise_cons]
        refine ⟨fun y hy => ?_, htail⟩
        rw [heq]
        exact hhead y hy
      · rw [if_neg heq]
        have hgt : kv.1 < k := by
          rcases lt_trichotomy k kv.1 with h | h | h
          · exact absurd h hlt
          · exact absurd h heq
          · exact h
        rw [mapSorted, List.pairwise_cons]
        constructor
        · intro y hy
          rcases mem_mapInsert k v rest y hy with h | h
          · rw [h]; exact hgt
          · exact hhead y h
        · exact ih htail

theorem mapGet_filter {α : Type} (k : String) (p : String → Bool) :
    ∀ (m : List (String × α)),
      mapGet k (m.filter (fun kv => p kv.1)) = if p k then mapGet k m else none := by
  intro m
  induction m with
  | nil => simp [mapGet]
  | cons kv rest ih =>
    by_cases hk : kv.1 = k
    · subst hk
      by_cases hp : p kv.1
      · simp [List.filter_cons, hp, mapGet]
      · simp [List.filter_cons, hp, mapGet, ih]
    · by_cases hp : p kv.1
      · simp [List.filter_cons, hp, mapGet, hk, ih]
      · simp [List.filter_cons, hp, mapGet, hk, ih]

theorem insertAll_nil (m : List (AppId × AppState)) : insertAll [] m = m := rfl

theorem insertAll_cons (i : AppId × AppState) (items : List (AppId × AppState))
    (m : List (AppId × AppState)) :
    insertAll (i :: items) m = insertAll items (mapInsert i.1 i.2 m) := rfl

theorem mapGet_insertAll_not_mem (k : AppId) :
    ∀ (items : List (AppId × AppState)) (m : List (AppId × AppState)),
      (∀ x ∈ items, x.1 ≠ k) → mapGet k (insertAll items m) = mapGet k m := by
  intro items
  induction items with
  | nil => intro m _; rfl
  | cons i rest ih =>
    intro m hk
    rw [insertAll_cons, ih _ (fun x hx => hk x (List.mem_cons_of_mem _ hx)),
      mapGet_mapInsert]
    rw [if_neg (hk i (List.mem_cons_self i rest))]

theorem mem_insertAll :
    ∀ (items : List (AppId × AppState)) (m : List (AppId × AppState)) (x : AppId × AppState),
      x ∈ insertAll items m → x ∈ items ∨ x ∈ m := by
  intro items
  induction items with
  | nil => intro m x hx; exact Or.inr hx
  | cons i rest ih =>
    intro m x hx
    rw [insertAll_cons] at hx
    rcases ih _ x hx with h | h
    · exact Or.inl (List.mem_cons_of_mem _ h)
    · rcases mem_mapInsert i.1 i.2 m x h with h1 | h1
      · exact Or.inl (h1 ▸ List.mem_cons_self i rest)
      · exact Or.inr h1

theorem mapGet_insertAll_mem (k : AppId) (v : AppState) :
    ∀ (items : List (AppId × AppState)) (m : List (AppId × AppState)),
      items.Pairwise (fun a b => a.1 < b.1) → (k, v) ∈ items →
      mapGet k (insertAll items m) = some v := by
  intro items
  induction items with
  | nil => intro m _ h; simp at h
  | cons i rest ih =>
    intro m hp hm
    rw [List.pairwise_cons] at hp
    rcases List.mem_cons.mp hm with h | h
    · rw [insertAll_cons,
        mapGet_insertAll_not_mem k rest _ (fun x hx => ?_), mapGet_mapInsert]
      · rw [← h, if_pos rfl]
      · intro hc
        have := hp.1 x hx
        rw [hc, ← h] at this
        exact lt_irrefl k this
    · rw [insertAll_cons]
      exact ih _ hp.2 h

/-! Instance-pool lemmas. -/

theorem dequeueUsable_all_expired (config : Config) (now : Nat) :
    ∀ (queue : List ReadyInstance),
      (∀ i ∈ queue, is_usable i config now = false) →
      dequeueUsable config now queue = (none, []) := by
  intro queue
  induction queue with
  | nil => intro _; rfl
  | cons inst rest ih =>
    intro h
    rw [dequeueUsable]
    rw [h inst (List.mem_cons_self inst rest)]
    simp only [Bool.false_eq_true, if_false]
    exact ih (fun i hi => h i (List.mem_cons_of_mem _ hi))

theorem dequeueUsable_some (config : Config) (now : Nat) :
    ∀ (queue : List ReadyInstance) (inst : ReadyInstance) (rest : List ReadyInstance),
      dequeueUsable config now queue = (some inst, rest) →
      ∃ pre inst0, queue = pre ++ inst0 :: rest ∧
        (∀ i ∈ pre, is_usable i config now = false) ∧
        is_usable inst0 config now = true ∧
        inst = { inst0 with last_active := now } := by
  intro queue
  induction queue with
  | nil => intro inst rest h; simp [dequeueUsable] at h
  | cons i0 tl ih =>
    intro inst rest h
    rw [dequeueUsable] at h
    by_cases hu : is_usable i0 config now
    · rw [if_pos hu] at h
      injection h with h1 h2
      injection h1 with h1
      refine ⟨[], i0, by simp [h2], by simp, hu, h1.symm⟩
    · rw [if_neg hu] at h
      obtain ⟨pre, inst0, hq, hpre, husable, hinst⟩ := ih inst rest h
      refine ⟨i0 :: pre, inst0, by simp [hq], ?_, husable, hinst⟩
      intro i hi
      rcases List.mem_cons.mp hi with h1 | h1
      · rw [h1]; exact Bool.eq_false_iff.mpr hu
      · exact hpre i h1

theorem selectRuntime_none : ∀ (l : List (RuntimeId × RtState)),
    selectRuntime l = none ↔ l = [] := by
  intro l
  cases l with
  | nil => simp [selectRuntime]
  | cons x rest =>
    simp only [selectRuntime]
    constructor
    · intro h
      cases hr : selectRuntime rest with
      | none => rw [hr] at h; simp at h
      | some y => rw [hr] at h; by_cases hl : y.2.load < x.2.load <;> simp [hl] at h
    · intro h; simp at h

theorem selectRuntime_spec : ∀ (l : List (RuntimeId × RtState)),
    l.Pairwise (fun a b => a.1 < b.1) →
    ∀ (rtid : RuntimeId) (rt : RtState), selectRuntime l = some (rtid, rt) →
      (rtid, rt) ∈ l ∧
      ∀ kv ∈ l, rt.load ≤ kv.2.load ∧ (kv.2.load = rt.load → rtid ≤ kv.1) := by
  intro l
  induction l with
  | nil => intro _ rtid rt h; simp [selectRuntime] at h
  | cons x rest ih =>
    intro hp rtid rt h
    rw [List.pairwise_cons] at hp
    rw [selectRuntime] at h
    cases hr : selectRuntime rest with
    | none =>
      rw [hr] at h
      dsimp only at h
      injection h with h
      have hrest : rest = [] := (selectRuntime_none rest).mp hr
      subst hrest
      subst h
      constructor
      · simp
      · intro kv hkv
        rcases List.mem_cons.mp hkv with h1 | h1
        · subst h1
          exact ⟨le_refl _, fun _ => le_refl _⟩
        · simp at h1
    | some y =>
      rw [hr] at h
      dsimp only at h
      by_cases hl : y.2.load < x.2.load
      · rw [if_pos hl] at h
        injection h with h
        subst h
        obtain ⟨hmem, hbound⟩ := ih hp.2 rtid rt hr
        constructor
        · exact List.mem_cons_of_mem _ hmem
        · intro kv hkv
          rcases List.mem_cons.mp hkv with h1 | h1
          · rw [h1]
            have hl2 : rt.load < x.2.load := hl
            constructor
            · exact le_of_lt hl2
            · intro hc
              exact absurd hl2 (by omega)
          · exact hbound kv h1
      · rw [if_neg hl] at h
        injection h with h
        subst h
        constructor
        · simp
        · intro kv hkv
          rcases List.mem_cons.mp hkv with h1 | h1
          · rw [h1]
            exact ⟨le_refl _, fun _ => le_refl _⟩
          · obtain ⟨hmem, hbound⟩ := ih hp.2 y.1 y.2 (by rw [hr])
            have h2 : y.2.load ≤ kv.2.load := (hbound kv h1).1
            have h3 : rt.load ≤ y.2.load := le_of_not_lt hl
            refine ⟨le_trans h3 h2, fun _ => le_of_lt (hp.1 kv h1)⟩

/-! Body-drain lemmas. -/

theorem drain_foldl_fst (maxB : Nat) :
    ∀ (chunks : List (List Nat)) (fb : List Nat) (e : Option SchedError),
      (chunks.foldl (drainStep maxB) (fb, e)).1 = fb ++ chunks.flatten := by
  intro chunks
  induction chunks with
  | nil => intro fb e; simp
  | cons c rest ih =>
    intro fb e
    rw [List.foldl_cons, drainStep]
    rw [ih]
    simp

theorem drain_foldl_snd (maxB : Nat) :
    ∀ (chunks : List (List Nat)) (fb : List Nat) (e : Option SchedError),
      (chunks.foldl (drainStep maxB) (fb, e)).2 =
        if fb.length + (chunks.map List.length).sum > maxB ∧ chunks ≠ [] then
          some SchedError.RequestBodyTooLarge
        else e := by
  intro chunks
  induction chunks with
  | nil => intro fb e; simp
  | cons c rest ih =>
    intro fb e
    rw [List.foldl_cons, drainStep, ih]
    simp only [List.map_cons, List.sum_cons, List.length_append, ne_eq,
      List.cons_ne_nil, not_false_eq_true, and_true]
    by_cases hrest : rest = []
    · subst hrest
      simp only [List.map_nil, List.sum_nil, Nat.add_zero, ne_eq, not_true_eq_false,
        and_false, if_false]
    · simp only [hrest, not_false_eq_true, and_true]
      split_ifs with h1 h2 h3 <;> first | rfl | omega

theorem drainBody_fst (maxB : Nat) (chunks : List (List Nat)) :
    (drainBody maxB chunks).1 = chunks.flatten := by
  rw [drainBody, drain_foldl_fst]
  simp

theorem drainBody_snd (maxB : Nat) (chunks : List (List Nat)) :
    (drainBody maxB chunks).2 =
      if (chunks.map List.length).sum > maxB then some SchedError.RequestBodyTooLarge
      else none := by
  rw [drainBody, drain_foldl_snd]
  by_cases h : (chunks.map List.length).sum > maxB
  · have hne : chunks ≠ [] := by
      intro hc
      subst hc
      simp at h
    simp [h, hne]
  · simp only [List.length_nil, Nat.zero_add]
    rw [if_neg (fun hx => h hx.1), if_neg h]

/-! Retry-loop lemmas. -/

theorem retryLoop_finished (appId : AppId) (appCfg : WorkerConfiguration) (script : String)
    (config : Config) (now : Nat) (spawnO : Nat → Option WorkerHandle)
    (fetchO : Nat → FetchReply) (n idx : Nat) (st st2 : LoopState) (r : Outcome)
    (tr : List RpcCall)
    (h : attemptStep appId appCfg script config st now (spawnO idx) (fetchO idx)
      = (StepResult.finished r st2, tr)) :
    retryLoop appId appCfg script config now spawnO fetchO (n + 1) idx st = (r, st2, tr) := by
  rw [retryLoop, h]

theorem retryLoop_again (appId : AppId) (appCfg : WorkerConfiguration) (script : String)
    (config : Config) (now : Nat) (spawnO : Nat → Option WorkerHandle)
    (fetchO : Nat → FetchReply) (n idx : Nat) (st st2 : LoopState) (tr : List RpcCall)
    (h : attemptStep appId appCfg script config st now (spawnO idx) (fetchO idx)
      = (StepResult.again st2, tr)) :
    retryLoop appId appCfg script config now spawnO fetchO (n + 1) idx st =
      ((retryLoop appId appCfg script config now spawnO fetchO n (idx + 1) st2).1,
       (retryLoop appId appCfg script config now spawnO fetchO n (idx + 1) st2).2.1,
       tr ++ (retryLoop appId appCfg script config now spawnO fetchO n (idx + 1) st2).2.2) := by
  rw [retryLoop, h]

theorem countFetch_append (a b : List RpcCall) :
    countFetch (a ++ b) = countFetch a + countFetch b := by
  rw [countFetch, countFetch, countFetch, List.filter_append, List.length_append]

theorem get_instance_no_fetch (appId : AppId) (appCfg : WorkerConfiguration) (script : String)
    (config : Config) (clients : List (RuntimeId × RtState)) (queue : List ReadyInstance)
    (now : Nat) (spawnReply : Option WorkerHandle) :
    countFetch (get_instance appId appCfg script config clients queue now spawnReply).2.2 = 0 := by
  rw [get_instance]
  cases hq : dequeueUsable config now queue with
  | mk o rest =>
    cases o with
    | some inst => simp [countFetch]
    | none =>
      cases selectRuntime clients with
      | none => simp [countFetch]
      | some y =>
        cases spawnReply with
        | none => simp [countFetch, isFetchCall]
        | some h => simp [countFetch, isFetchCall]

theorem attemptStep_fetch_le_one (appId : AppId) (appCfg : WorkerConfiguration)
    (script : String) (config : Config) (st : LoopState) (now : Nat)
    (spawnReply : Option WorkerHandle) (fetchReply : FetchReply) :
    countFetch (attemptStep appId appCfg script config st now spawnReply fetchReply).2 ≤ 1 := by
  rw [attemptStep]
  cases hg : get_instance appId appCfg script config st.clients st.queue now spawnReply with
  | mk res qtr =>
    have h0 : countFetch qtr.2 = 0 := by
      have := get_instance_no_fetch appId appCfg script config st.clients st.queue now spawnReply
      rw [hg] at this
      exact this
    cases res with
    | failedNoInstance => simpa using Nat.le_of_eq h0 |>.trans (Nat.le_succ 0)
    | failedSpawnRpc => simpa using Nat.le_of_eq h0 |>.trans (Nat.le_succ 0)
    | got inst =>
      have h1 : countFetch (qtr.2 ++ [RpcCall.fetchCall inst.rtid inst.handle]) = 1 := by
        rw [countFetch_append, h0]
        simp [countFetch, isFetchCall]
      cases fetchReply with
      | transportError => simpa using Nat.le_of_eq h1
      | appError e =>
        cases e with
        | NoSuchWorker => simpa using Nat.le_of_eq h1
        | otherError t => simpa using Nat.le_of_eq h1
      | success status body => simpa using Nat.le_of_eq h1

theorem retryLoop_fetch_le (appId : AppId) (appCfg : WorkerConfiguration) (script : String)
    (config : Config) (now : Nat) (spawnO : Nat → Option WorkerHandle)
    (fetchO : Nat → FetchReply) :
    ∀ (fuel idx : Nat) (st : LoopState),
      countFetch (retryLoop appId appCfg script config now spawnO fetchO fuel idx st).2.2
        ≤ fuel := by
  intro fuel
  induction fuel with
  | zero => intro idx st; simp [retryLoop, countFetch]
  | succ n ih =>
    intro idx st
    cases hs : attemptStep appId appCfg script config st now (spawnO idx) (fetchO idx) with
    | mk sr tr =>
      have htr : countFetch tr ≤ 1 := by
        have h0 := attemptStep_fetch_le_one appId appCfg script config st now (spawnO idx)
          (fetchO idx)
        rw [hs] at h0
        exact h0
      cases sr with
      | finished r st2 =>
        rw [retryLoop_finished appId appCfg script config now spawnO fetchO n idx st st2 r tr hs]
        exact le_trans htr (Nat.le_add_left 1 n)
      | again st2 =>
        rw [retryLoop_again appId appCfg script config now spawnO fetchO n idx st st2 tr hs]
        show countFetch (tr ++
          (retryLoop appId appCfg script config now spawnO fetchO n (idx + 1) st2).2.2) ≤ n + 1
        rw [countFetch_append]
        have h2 := ih (idx + 1) st2
        omega

/-! Reconciliation lemmas. -/

theorem foldl_mapInsert_sorted :
    ∀ (apps : List AppConfig) (m : List (AppId × AppConfig)), mapSorted m →
      mapSorted (apps.foldl (fun m a => mapInsert a.id a m) m) := by
  intro apps
  induction apps with
  | nil => intro m h; exact h
  | cons a rest ih =>
    intro m h
    rw [List.foldl_cons]
    exact ih _ (mapInsert_sorted a.id a m h)

theorem collectAppsConfig_sorted (apps : List AppConfig) :
    mapSorted (collectAppsConfig apps) := by
  rw [collectAppsConfig]
  exact foldl_mapInsert_sorted apps [] (by simp [mapSorted])

theorem mkUnseenState_shape (wc : WorkerConfiguration) (fetch : String → Option String)
    (kv : AppId × AppConfig) (x : AppId × AppState)
    (h : mkUnseenState wc fetch kv = some x) :
    x.1 = kv.1 ∧ x.2.config = wc := by
  rw [mkUnseenState] at h
  cases hf : fetch kv.2.script with
  | none => rw [hf] at h; simp at h
  | some body =>
    rw [hf] at h
    simp only [Option.map_some'] at h
    injection h with h
    rw [← h]
    exact ⟨rfl, rfl⟩

theorem unseenApps_pairwise (wc : WorkerConfiguration) (fetch : String → Option String) :
    ∀ (l : List (AppId × AppConfig)), l.Pairwise (fun a b => a.1 < b.1) →
      (l.filterMap (mkUnseenState wc fetch)).Pairwise (fun a b => a.1 < b.1) := by
  intro l
  induction l with
  | nil => intro _; simp
  | cons kv rest ih =>
    intro hp
    rw [List.pairwise_cons] at hp
    cases hm : mkUnseenState wc fetch kv with
    | none =>
      simp only [List.filterMap_cons, hm]
      exact ih hp.2
    | some x =>
      simp only [List.filterMap_cons, hm]
      rw [List.pairwise_cons]
      constructor
      · intro y hy
        obtain ⟨b, hb, hgb⟩ := List.mem_filterMap.mp hy
        have hx := (mkUnseenState_shape wc fetch kv x hm).1
        have hyb := (mkUnseenState_shape wc fetch b y hgb).1
        rw [hx, hyb]
        exact hp.1 b hb
      · exact ih hp.2

theorem mem_unseenApps (wc : WorkerConfiguration) (fetch : String → Option String)
    (l : List (AppId × AppConfig)) (k : AppId) (ac : AppConfig) (body : String)
    (hmem : (k, ac) ∈ l) (hf : fetch ac.script = some body) :
    (k, AppState.mk k wc body []) ∈ l.filterMap (mkUnseenState wc fetch) := by
  refine List.mem_filterMap.mpr ⟨(k, ac), hmem, ?_⟩
  rw [mkUnseenState]
  simp [hf]

theorem mapGet_of_mem_keys {α : Type} (k : String) :
    ∀ (m : List (String × α)), k ∈ m.map Prod.fst → ∃ v, mapGet k m = some v := by
  intro m
  induction m with
  | nil => intro h; simp at h
  | cons kv rest ih =>
    intro h
    rw [List.map_cons] at h
    rcases List.mem_cons.mp h with h1 | h1
    · rw [mapGet, if_pos h1.symm]
      exact ⟨kv.2, rfl⟩
    · rw [mapGet]
      by_cases hk : kv.1 = k
      · rw [if_pos hk]; exact ⟨kv.2, rfl⟩
      · rw [if_neg hk]; exact ih h1

theorem insertRoute_values (tbl : RouteTbl) (dom p : String) (id : AppId)
    (ids : List AppId) (hid : id ∈ ids)
    (ht : ∀ d sub q a, mapGet d tbl = some sub → (q, a) ∈ sub → a ∈ ids) :
    ∀ d sub q a, mapGet d (insertRoute tbl dom p id) = some sub → (q, a) ∈ sub → a ∈ ids := by
  intro d sub q a hget hmem
  rw [insertRoute] at hget
  cases hd : mapGet dom tbl with
  | none =>
    rw [hd] at hget
    dsimp only at hget
    rw [mapGet_mapInsert] at hget
    by_cases hdd : dom = d
    · rw [if_pos hdd] at hget
      injection hget with hget
      subst hget
      rcases List.mem_cons.mp hmem with h1 | h1
      · have ha : a = id := congrArg Prod.snd h1
        rw [ha]; exact hid
      · simp at h1
    · rw [if_neg hdd] at hget
      exact ht d sub q a hget hmem
  | some sub0 =>
    rw [hd] at hget
    dsimp only at hget
    rw [mapGet_mapInsert] at hget
    by_cases hdd : dom = d
    · rw [if_pos hdd] at hget
      injection hget with hget
      subst hget
      rcases mem_mapInsert p id sub0 (q, a) hmem with h1 | h1
      · have ha : a = id := congrArg Prod.snd h1
        rw [ha]; exact hid
      · exact ht dom sub0 q a hd h1
    · rw [if_neg hdd] at hget
      exact ht d sub q a hget hmem

theorem foldl_insertRoute_values (ids : List AppId) (id : AppId) (hid : id ∈ ids) :
    ∀ (routes : List AppRoute) (tbl : RouteTbl),
      (∀ d sub q a, mapGet d tbl = some sub → (q, a) ∈ sub → a ∈ ids) →
      ∀ d sub q a,
        mapGet d (routes.foldl (fun t r => insertRoute t r.domain r.pathPre id) tbl)
          = some sub → (q, a) ∈ sub → a ∈ ids := by
  intro routes
  induction routes with
  | nil => intro tbl ht; exact ht
  | cons r rest ih =>
    intro tbl ht
    rw [List.foldl_cons]
    exact ih _ (insertRoute_values tbl r.domain r.pathPre id ids hid ht)

theorem buildRoutingTable_values :
    ∀ (nac : List (AppId × AppConfig)) (tbl : RouteTbl) (ids : List AppId),
      (∀ kv ∈ nac, kv.1 ∈ ids) →
      (∀ d sub q a, mapGet d tbl = some sub → (q, a) ∈ sub → a ∈ ids) →
      ∀ d sub q a,
        mapGet d (nac.foldl (fun tbl kv =>
            kv.2.routes.foldl (fun t r => insertRoute t r.domain r.pathPre kv.1) tbl) tbl)
          = some sub → (q, a) ∈ sub → a ∈ ids := by
  intro nac
  induction nac with
  | nil => intro tbl ids _ ht; exact ht
  | cons kv rest ih =>
    intro tbl ids hk ht
    rw [List.foldl_cons]
    exact ih _ ids (fun x hx => hk x (List.mem_cons_of_mem _ hx))
      (foldl_insertRoute_values ids kv.1 (hk kv (List.mem_cons_self kv rest)) kv.2.routes tbl ht)

/-! Host-normalization lemmas. -/

theorem beforeColonAux_no_colon : ∀ (l : List Char), ':' ∉ l → beforeColonAux l = l := by
  intro l
  induction l with
  | nil => intro _; rfl
  | cons c rest ih =>
    intro h
    rw [beforeColonAux]
    have hc : ¬ c = ':' := fun hc => h (by rw [hc]; exact List.mem_cons_self _ _)
    rw [if_neg hc, ih (fun hm => h (List.mem_cons_of_mem _ hm))]

theorem beforeColonAux_colon_append : ∀ (l t : List Char), ':' ∉ l →
    beforeColonAux (l ++ ':' :: t) = l := by
  intro l
  induction l with
  | nil => intro t _; simp [beforeColonAux]
  | cons c rest ih =>
    intro t h
    rw [List.cons_append, beforeColonAux]
    have hc : ¬ c = ':' := fun hc => h (by rw [hc]; exact List.mem_cons_self _ _)
    rw [if_neg hc, ih t (fun hm => h (List.mem_cons_of_mem _ hm))]

theorem string_data_append (s t : String) : (s ++ t).data = s.data ++ t.data := by
  cases s
  cases t
  rfl

theorem beforeColon_no_colon (s : String) (h : ':' ∉ s.data) : beforeColon s = s := by
  rw [beforeColon, beforeColonAux_no_colon s.data h]

theorem beforeColon_strip (s t : String) (h : ':' ∉ s.data) :
    beforeColon (s ++ ":" ++ t) = s := by
  rw [beforeColon]
  have hd : (s ++ ":" ++ t).data = s.data ++ ':' :: t.data := by
    rw [string_data_append, string_data_append, List.append_assoc]
    rfl
  rw [hd, beforeColonAux_colon_append s.data t.data h]

/-! Route-matching lemmas. -/

theorem find_desc_max (path : String) :
    ∀ (l : PrefMap), l.Pairwise (fun a b => b.1 < a.1) →
      ∀ kv, l.find? (fun x => strStartsWith path x.1) = some kv →
        kv ∈ l ∧ strStartsWith path kv.1 = true ∧
        ∀ x ∈ l, strStartsWith path x.1 = true → x.1 ≤ kv.1 := by
  intro l
  induction l with
  | nil => intro _ kv h; simp at h
  | cons a rest ih =>
    intro hp kv h
    rw [List.pairwise_cons] at hp
    by_cases hs : strStartsWith path a.1 = true
    · have hpos : (fun x : String × AppId => strStartsWith path x.1) a = true := hs
      rw [@List.find?_cons_of_pos (String × AppId)
        (fun x => strStartsWith path x.1) a rest hpos] at h
      injection h with h
      subst h
      refine ⟨List.mem_cons_self a rest, hs, ?_⟩
      intro x hx _
      rcases List.mem_cons.mp hx with h1 | h1
      · subst h1; exact le_refl _
      · exact le_of_lt (hp.1 x h1)
    · have hneg : ¬ ((fun x : String × AppId => strStartsWith path x.1) a = true) := hs
      rw [@List.find?_cons_of_neg (String × AppId)
        (fun x => strStartsWith path x.1) a rest hneg] at h
      obtain ⟨hmem, hsw, hmax⟩ := ih hp.2 kv h
      refine ⟨List.mem_cons_of_mem _ hmem, hsw, ?_⟩
      intro x hx hxs
      rcases List.mem_cons.mp hx with h1 | h1
      · subst h1; exact absurd hxs hs
      · exact hmax x h1 hxs

theorem matchRoute_spec (sub : PrefMap) (path : String) (a : AppId)
    (hp : sub.Pairwise (fun x y => x.1 < y.1))
    (h : matchRoute sub path = some a) :
    ∃ p, (p, a) ∈ sub ∧ strStartsWith path p = true ∧
      ∀ kv ∈ sub, strStartsWith path kv.1 = true → kv.1 ≤ p := by
  rw [matchRoute] at h
  cases hf : sub.reverse.find? (fun kv => strStartsWith path kv.1) with
  | none => rw [hf] at h; simp at h
  | some kv =>
    rw [hf] at h
    dsimp only at h
    injection h with h
    have hrev : sub.reverse.Pairwise (fun x y => y.1 < x.1) := by
      rw [List.pairwise_reverse]
      exact hp
    obtain ⟨hmem, hsw, hmax⟩ := find_desc_max path sub.reverse hrev kv hf
    refine ⟨kv.1, ?_, hsw, ?_⟩
    · rw [← h]
      exact List.mem_reverse.mp hmem
    · intro x hx hxs
      exact hmax x (List.mem_reverse.mpr hx) hxs

theorem matchRoute_none (sub : PrefMap) (path : String) :
    matchRoute sub path = none ↔ ∀ kv ∈ sub, strStartsWith path kv.1 = false := by
  rw [matchRoute]
  cases hf : sub.reverse.find? (fun kv => strStartsWith path kv.1) with
  | none =>
    dsimp only
    constructor
    · intro _ kv hkv
      have h1 := List.find?_eq_none.mp hf kv (List.mem_reverse.mpr hkv)
      simpa using h1
    · intro _; rfl
  | some kv =>
    dsimp only
    constructor
    · intro h; simp at h
    · intro hall
      have h1 := List.find?_some hf
      have h2 := hall kv (List.mem_reverse.mp (List.mem_of_find?_eq_some hf))
      rw [h2] at h1
      simp at h1

/-- Rust String order is byte-lexicographic, i.e. lexicographic on the
character list; this converts a decidable character-list comparison into the
String order used by the maps. -/
theorem string_lt_of_data {s t : String} (h : s.data < t.data) : s < t := by
  rw [String.lt_iff_toList_lt]
  exact h

/-- Pairwise for a two-element list from the single needed relation. -/
theorem pairwise_pair {α : Type} (R : α → α → Prop) (a b : α) (h : R a b) :
    [a, b].Pairwise R := by
  refine List.Pairwise.cons ?_ (List.pairwise_singleton R b)
  intro y hy
  rcases List.mem_cons.mp hy with h1 | h1
  · subst h1; exact h
  · simp at h1

/-! Concrete fixtures for counterexamples and witnesses. -/

/-- A scheduler state with no routes, no apps, no runtimes, and a 1-byte body cap. -/
def emptySched : SchedState :=
  SchedState.mk (Config.mk [] 0 0 1) (WorkerConfiguration.mk "g") [] [] []

/-- A scheduler state routing all of domain d to app a, with no AppState for a. -/
def routedSched : SchedState :=
  SchedState.mk (Config.mk [] 0 0 1) (WorkerConfiguration.mk "g") [] []
    [("d", [("", "a")])]

/-! Claim theorems. -/

/-- C9: counterexample — the claim that the four SchedError kinds are each
mapped to a distinct HTTP status code is false: NoAvailableInstance and
RequestFailedAfterRetries are distinct kinds yet build_response gives both
status 503. -/
theorem c9_distinct_status_counterexample :
    (build_response SchedError.NoAvailableInstance).1
      = (build_response SchedError.RequestFailedAfterRetries).1 ∧
    SchedError.NoAvailableInstance ≠ SchedError.RequestFailedAfterRetries ∧
    (build_response SchedError.NoAvailableInstance).1 = 503 := by
  refine ⟨rfl, by decide, rfl⟩

/-- C9 (amended): build_response maps NoAvailableInstance to 503, NoRouteMapping
to 502, RequestBodyTooLarge to 413 and RequestFailedAfterRetries to 503 — so
the last two kinds named share status 503 while the other statuses are distinct
— and the response body is always that status's HTTP reason phrase. -/
theorem c9_build_response :
    build_response SchedError.NoAvailableInstance = (503, "Service Unavailable") ∧
    build_response SchedError.NoRouteMapping = (502, "Bad Gateway") ∧
    build_response SchedError.RequestBodyTooLarge = (413, "Payload Too Large") ∧
    build_response SchedError.RequestFailedAfterRetries = (503, "Service Unavailable") := by
  refine ⟨by decide, by decide, by decide, by decide⟩

/-- C8: counterexample — with a 1-byte cap, draining the single chunk [0, 0]
leaves 2 bytes in the buffer: the configured ceiling does not bound the bytes
buffered in memory, it only makes the drain report RequestBodyTooLarge. -/
theorem c8_buffer_bound_counterexample :
    (drainBody 1 [[0, 0]]).1.length = 2 ∧
    ¬ ((drainBody 1 [[0, 0]]).1.length ≤ 1) ∧
    (drainBody 1 [[0, 0]]).2 = some SchedError.RequestBodyTooLarge := by
  decide

/-- C8 (amended): the drain always buffers the entire body — the buffer ends as
the concatenation of all chunks whatever the cap — and the cap only decides
whether RequestBodyTooLarge is recorded, namely exactly when the total body
size exceeds max_request_body_size_bytes. -/
theorem c8_drain_buffers_all (maxB : Nat) (chunks : List (List Nat)) :
    (drainBody maxB chunks).1 = chunks.flatten ∧
    (drainBody maxB chunks).2 = (if (chunks.map List.length).sum > maxB
      then some SchedError.RequestBodyTooLarge else none) :=
  ⟨drainBody_fst maxB chunks, drainBody_snd maxB chunks⟩

/-- C5: counterexample — a request whose 2-byte body exceeds the 1-byte cap but
whose host has no route entry fails with NoRouteMapping and not
RequestBodyTooLarge: route resolution precedes the body-size check, so the
claim does not hold of every oversized request. -/
theorem c5_counterexample :
    ((RequestModel.mk none "/" [[0, 0]]).bodyChunks.map List.length).sum >
      emptySched.config.max_request_body_size_bytes ∧
    handle_request emptySched (RequestModel.mk none "/" [[0, 0]]) 0 (fun _ => none)
      (fun _ => FetchReply.transportError)
      = (Outcome.failure SchedError.NoRouteMapping, []) ∧
    Outcome.failure SchedError.NoRouteMapping ≠
      Outcome.failure SchedError.RequestBodyTooLarge := by
  decide

/-- C5 (amended): for every request that resolves through the route table (its
normalized host has a domain entry and some route prefix matches its path) and
whose total body size exceeds max_request_body_size_bytes, handle_request fails
with RequestBodyTooLarge — mapped by build_response to HTTP 413 — and no RPC,
neither spawn_worker nor fetch, is issued for that request. -/
theorem c5_body_too_large (sched : SchedState) (req : RequestModel) (now : Nat)
    (spawnO : Nat → Option WorkerHandle) (fetchO : Nat → FetchReply)
    (sub : PrefMap) (appid : AppId)
    (hdom : mapGet (beforeColon (hostRaw req.hostHeader)) sched.route_mappings = some sub)
    (hpre : matchRoute sub req.path = some appid)
    (hsize : (req.bodyChunks.map List.length).sum
      > sched.config.max_request_body_size_bytes) :
    handle_request sched req now spawnO fetchO
      = (Outcome.failure SchedError.RequestBodyTooLarge, []) ∧
    (build_response SchedError.RequestBodyTooLarge).1 = 413 := by
  constructor
  · simp only [handle_request, hdom, hpre, drainBody_snd, if_pos hsize]
  · rfl

/-- C5 (witness): the amended theorem applied to a routed request with a 2-byte
body against a 1-byte cap. -/
theorem c5_body_too_large_witness :
    handle_request routedSched (RequestModel.mk (some (HeaderBytes.utf8 "d")) "/x" [[0, 0]])
      0 (fun _ => none) (fun _ => FetchReply.transportError)
      = (Outcome.failure SchedError.RequestBodyTooLarge, []) :=
  (c5_body_too_large routedSched
    (RequestModel.mk (some (HeaderBytes.utf8 "d")) "/x" [[0, 0]]) 0 (fun _ => none)
    (fun _ => FetchReply.transportError) [("", "a")] "a"
    (by decide) (by decide) (by decide)).1

/-- C10: a request with an absent or non-UTF-8 Host header does not make the
handler panic: the normalized host is the empty string, and when the route
table has no entry for the empty domain the request fails with NoRouteMapping
and issues no RPC. -/
theorem c10_no_host (sched : SchedState) (req : RequestModel) (now : Nat)
    (spawnO : Nat → Option WorkerHandle) (fetchO : Nat → FetchReply)
    (hh : req.hostHeader = none ∨ req.hostHeader = some HeaderBytes.nonUtf8)
    (hroute : mapGet "" sched.route_mappings = none) :
    beforeColon (hostRaw req.hostHeader) = "" ∧
    handle_request sched req now spawnO fetchO
      = (Outcome.failure SchedError.NoRouteMapping, []) := by
  have hempty : hostRaw req.hostHeader = "" := by
    rcases hh with h | h <;> rw [h] <;> rfl
  have hbc : beforeColon (hostRaw req.hostHeader) = "" := by
    rw [hempty]; rfl
  refine ⟨hbc, ?_⟩
  simp only [handle_request, hbc, hroute]

/-- C10 (witness): the theorem applied to a host-less request against the empty
scheduler state. -/
theorem c10_no_host_witness :
    beforeColon (hostRaw (RequestModel.mk none "/" []).hostHeader) = "" ∧
    handle_request emptySched (RequestModel.mk none "/" []) 0 (fun _ => none)
      (fun _ => FetchReply.transportError)
      = (Outcome.failure SchedError.NoRouteMapping, []) :=
  c10_no_host emptySched (RequestModel.mk none "/" []) 0 (fun _ => none)
    (fun _ => FetchReply.transportError) (Or.inl rfl) (by decide)

/-- C6: routing strips any :port suffix from the Host header, looks the
resulting domain up in the route table, iterates the domain's prefix map in
descending lexicographic key order and selects the first prefix of the path —
so the chosen prefix is the lexicographically greatest matching one, and with
routes /a and /a/b the path /a/b/c maps to /a/b — while an absent domain or an
unmatched path each fail with NoRouteMapping. -/
theorem c6_routing :
    (∀ s t : String, ':' ∉ s.data → beforeColon (s ++ ":" ++ t) = s) ∧
    (∀ s : String, ':' ∉ s.data → beforeColon s = s) ∧
    (∀ (sub : PrefMap) (path : String) (a : AppId),
      sub.Pairwise (fun x y => x.1 < y.1) →
      matchRoute sub path = some a →
      ∃ p, (p, a) ∈ sub ∧ strStartsWith path p = true ∧
        ∀ kv ∈ sub, strStartsWith path kv.1 = true → kv.1 ≤ p) ∧
    matchRoute [("/a", "A"), ("/a/b", "B")] "/a/b/c" = some "B" ∧
    (∀ (sched : SchedState) (req : RequestModel) (now : Nat)
      (spawnO : Nat → Option WorkerHandle) (fetchO : Nat → FetchReply),
      mapGet (beforeColon (hostRaw req.hostHeader)) sched.route_mappings = none →
      handle_request sched req now spawnO fetchO
        = (Outcome.failure SchedError.NoRouteMapping, [])) ∧
    (∀ (sched : SchedState) (req : RequestModel) (now : Nat)
      (spawnO : Nat → Option WorkerHandle) (fetchO : Nat → FetchReply) (sub : PrefMap),
      mapGet (beforeColon (hostRaw req.hostHeader)) sched.route_mappings = some sub →
      matchRoute sub req.path = none →
      handle_request sched req now spawnO fetchO
        = (Outcome.failure SchedError.NoRouteMapping, [])) := by
  refine ⟨fun s t h => beforeColon_strip s t h, fun s h => beforeColon_no_colon s h,
    fun sub path a hp h => matchRoute_spec sub path a hp h, by decide, ?_, ?_⟩
  · intro sched req now spawnO fetchO h
    simp only [handle_request, h]
  · intro sched req now spawnO fetchO sub hdom hpre
    simp only [handle_request, hdom, hpre]

/-- C6 (witness): the routing theorem applied at concrete inputs — a host with
a port, the two-route longest-prefix example, and a domainless request. -/
theorem c6_routing_witness :
    beforeColon ("example.com" ++ ":" ++ "8080") = "example.com" ∧
    (∃ p, (p, "B") ∈ ([("/a", "A"), ("/a/b", "B")] : PrefMap) ∧
      strStartsWith "/a/b/c" p = true ∧
      ∀ kv ∈ ([("/a", "A"), ("/a/b", "B")] : PrefMap),
        strStartsWith "/a/b/c" kv.1 = true → kv.1 ≤ p) ∧
    handle_request emptySched (RequestModel.mk (some (HeaderBytes.utf8 "x")) "/" []) 0
      (fun _ => none) (fun _ => FetchReply.transportError)
      = (Outcome.failure SchedError.NoRouteMapping, []) := by
  obtain ⟨h1, h2, h3, h4, h5, h6⟩ := c6_routing
  refine ⟨h1 "example.com" "8080" (by decide), ?_, ?_⟩
  · exact h3 [("/a", "A"), ("/a/b", "B")] "/a/b/c" "B"
      (pairwise_pair _ _ _ (string_lt_of_data (by decide))) (by decide)
  · exact h5 emptySched (RequestModel.mk (some (HeaderBytes.utf8 "x")) "/" []) 0
      (fun _ => none) (fun _ => FetchReply.transportError) (by decide)

/-- Removing a runtime makes its registry lookup fail. -/
theorem mapGet_removeClient (rtid : RuntimeId) :
    ∀ (cl : List (RuntimeId × RtState)), mapGet rtid (removeClient rtid cl) = none := by
  intro cl
  induction cl with
  | nil => rfl
  | cons kv rest ih =>
    rw [removeClient] at ih ⊢
    rw [List.filter_cons]
    by_cases hk : kv.1 = rtid
    · have hb : (kv.1 != rtid) = false := by simp [hk]
      rw [hb]
      simpa using ih
    · have hb : (kv.1 != rtid) = true := by simp [hk]
      rw [hb]
      simp only [if_true]
      rw [mapGet, if_neg hk]
      exact ih

/-- C3: the retry loop of handle_request runs with fuel 3 so at most 3 fetch
RPCs are ever issued; an application error other than NoSuchWorker finishes
the loop with RequestFailedAfterRetries and leaves the queue exactly as the
dequeue left it (the instance is not pooled); NoSuchWorker continues to the
next attempt, also without pooling; and three attempts that all end without a
success leave the whole loop failing with RequestFailedAfterRetries. -/
theorem c3_retry_loop (appId : AppId) (appCfg : WorkerConfiguration) (script : String)
    (config : Config) (now : Nat) (spawnO : Nat → Option WorkerHandle)
    (fetchO : Nat → FetchReply) (st : LoopState) :
    countFetch (retryLoop appId appCfg script config now spawnO fetchO 3 0 st).2.2 ≤ 3 ∧
    (∀ (st1 : LoopState) (sp : Option WorkerHandle) (tag : String) (inst : ReadyInstance)
      (q : List ReadyInstance) (tr : List RpcCall),
      get_instance appId appCfg script config st1.clients st1.queue now sp
        = (GetRes.got inst, q, tr) →
      attemptStep appId appCfg script config st1 now sp
          (FetchReply.appError (GenericError.otherError tag))
        = (StepResult.finished (Outcome.failure SchedError.RequestFailedAfterRetries)
            (LoopState.mk st1.clients q),
           tr ++ [RpcCall.fetchCall inst.rtid inst.handle])) ∧
    (∀ (st1 : LoopState) (sp : Option WorkerHandle) (inst : ReadyInstance)
      (q : List ReadyInstance) (tr : List RpcCall),
      get_instance appId appCfg script config st1.clients st1.queue now sp
        = (GetRes.got inst, q, tr) →
      attemptStep appId appCfg script config st1 now sp
          (FetchReply.appError GenericError.NoSuchWorker)
        = (StepResult.again (LoopState.mk st1.clients q),
           tr ++ [RpcCall.fetchCall inst.rtid inst.handle])) ∧
    (∀ (s1 s2 s3 : LoopState) (t0 t1 t2 : List RpcCall),
      attemptStep appId appCfg script config st now (spawnO 0) (fetchO 0)
        = (StepResult.again s1, t0) →
      attemptStep appId appCfg script config s1 now (spawnO 1) (fetchO 1)
        = (StepResult.again s2, t1) →
      attemptStep appId appCfg script config s2 now (spawnO 2) (fetchO 2)
        = (StepResult.again s3, t2) →
      retryLoop appId appCfg script config now spawnO fetchO 3 0 st
        = (Outcome.failure SchedError.RequestFailedAfterRetries, s3,
           t0 ++ (t1 ++ (t2 ++ [])))) := by
  refine ⟨retryLoop_fetch_le appId appCfg script config now spawnO fetchO 3 0 st,
    ?_, ?_, ?_⟩
  · intro st1 sp tag inst q tr hg
    simp only [attemptStep, hg]
  · intro st1 sp inst q tr hg
    simp only [attemptStep, hg]
  · intro s1 s2 s3 t0 t1 t2 h0 h1 h2
    rw [retryLoop_again appId appCfg script config now spawnO fetchO 2 0 st s1 t0 h0]
    rw [retryLoop_again appId appCfg script config now spawnO fetchO 1 1 s1 s2 t1 h1]
    rw [retryLoop_again appId appCfg script config now spawnO fetchO 0 2 s2 s3 t2 h2]
    rfl

/-- C3 (witness): three NoSuchWorker replies in a row against a one-runtime
registry exhaust the loop into RequestFailedAfterRetries with exactly three
fetch attempts recorded. -/
theorem c3_retry_loop_witness :
    retryLoop "a" (WorkerConfiguration.mk "g") "s" (Config.mk [] 1000 1000 1000) 7
      (fun _ => some "h") (fun _ => FetchReply.appError GenericError.NoSuchWorker) 3 0
      (LoopState.mk [("rt", RtState.mk 0)] [])
      = (Outcome.failure SchedError.RequestFailedAfterRetries,
         LoopState.mk [("rt", RtState.mk 0)] [],
         [RpcCall.spawnCall "rt" "a" (WorkerConfiguration.mk "g") "s",
          RpcCall.fetchCall "rt" "h",
          RpcCall.spawnCall "rt" "a" (WorkerConfiguration.mk "g") "s",
          RpcCall.fetchCall "rt" "h",
          RpcCall.spawnCall "rt" "a" (WorkerConfiguration.mk "g") "s",
          RpcCall.fetchCall "rt" "h"]) := by
  have h4 := (c3_retry_loop "a" (WorkerConfiguration.mk "g") "s"
    (Config.mk [] 1000 1000 1000) 7 (fun _ => some "h")
    (fun _ => FetchReply.appError GenericError.NoSuchWorker)
    (LoopState.mk [("rt", RtState.mk 0)] [])).2.2.2
    (LoopState.mk [("rt", RtState.mk 0)] []) (LoopState.mk [("rt", RtState.mk 0)] [])
    (LoopState.mk [("rt", RtState.mk 0)] [])
    [RpcCall.spawnCall "rt" "a" (WorkerConfiguration.mk "g") "s",
     RpcCall.fetchCall "rt" "h"]
    [RpcCall.spawnCall "rt" "a" (WorkerConfiguration.mk "g") "s",
     RpcCall.fetchCall "rt" "h"]
    [RpcCall.spawnCall "rt" "a" (WorkerConfiguration.mk "g") "s",
     RpcCall.fetchCall "rt" "h"]
    (by decide) (by decide) (by decide)
  exact h4.trans (by decide)

/-- C7: a transport-level fetch failure ends the attempt in a retry whose state
has the instance's whole runtime removed from the registry (its lookup then
fails) and whose ready queue is exactly what the dequeue left — the failed
instance is not pooled back — and the retry loop hands exactly this state to
the next attempt. -/
theorem c7_transport_failure (appId : AppId) (appCfg : WorkerConfiguration)
    (script : String) (config : Config) (now : Nat) :
    (∀ (st : LoopState) (sp : Option WorkerHandle) (inst : ReadyInstance)
      (q : List ReadyInstance) (tr : List RpcCall),
      get_instance appId appCfg script config st.clients st.queue now sp
        = (GetRes.got inst, q, tr) →
      attemptStep appId appCfg script config st now sp FetchReply.transportError
        = (StepResult.again (LoopState.mk (removeClient inst.rtid st.clients) q),
           tr ++ [RpcCall.fetchCall inst.rtid inst.handle]) ∧
      mapGet inst.rtid (removeClient inst.rtid st.clients) = none) ∧
    (∀ (spawnO : Nat → Option WorkerHandle) (fetchO : Nat → FetchReply)
      (fuel idx : Nat) (st st2 : LoopState) (tr : List RpcCall),
      attemptStep appId appCfg script config st now (spawnO idx) (fetchO idx)
        = (StepResult.again st2, tr) →
      retryLoop appId appCfg script config now spawnO fetchO (fuel + 1) idx st
        = ((retryLoop appId appCfg script config now spawnO fetchO fuel (idx + 1) st2).1,
           (retryLoop appId appCfg script config now spawnO fetchO fuel (idx + 1) st2).2.1,
           tr ++ (retryLoop appId appCfg script config now spawnO fetchO fuel
             (idx + 1) st2).2.2)) := by
  constructor
  · intro st sp inst q tr hg
    constructor
    · simp only [attemptStep, hg]
    · exact mapGet_removeClient inst.rtid st.clients
  · intro spawnO fetchO fuel idx st st2 tr h
    exact retryLoop_again appId appCfg script config now spawnO fetchO fuel idx st st2 tr h

/-- C7 (witness): a spawned instance whose fetch hits a transport error ends in
a retry carrying an empty registry — the runtime was removed — and an empty
ready queue, nothing pooled. -/
theorem c7_transport_failure_witness :
    attemptStep "a" (WorkerConfiguration.mk "g") "s" (Config.mk [] 1000 1000 1000)
      (LoopState.mk [("rt", RtState.mk 0)] []) 7 (some "h") FetchReply.transportError
      = (StepResult.again (LoopState.mk [] []),
         [RpcCall.spawnCall "rt" "a" (WorkerConfiguration.mk "g") "s",
          RpcCall.fetchCall "rt" "h"]) := by
  have h := (c7_transport_failure "a" (WorkerConfiguration.mk "g") "s"
    (Config.mk [] 1000 1000 1000) 7).1 (LoopState.mk [("rt", RtState.mk 0)] [])
    (some "h") (ReadyInstance.mk "rt" 7 "h") []
    [RpcCall.spawnCall "rt" "a" (WorkerConfiguration.mk "g") "s"] (by decide)
  exact h.1.trans (by decide)

/-- What populateConfig leaves in the apps table, spelled out. -/
theorem populateConfig_apps (wc : WorkerConfiguration) (config : Config)
    (oldApps : List (AppId × AppState)) (fetch : String → Option String) :
    (populateConfig wc config oldApps fetch).1
      = (insertAll (((collectAppsConfig config.apps).filter
            (fun kv => (mapGet kv.1 oldApps).isNone)).filterMap (mkUnseenState wc fetch))
          oldApps).filter
        (fun kv => (mapGet kv.1 (collectAppsConfig config.apps)).isSome) := rfl

/-- What populateConfig installs as the route table, spelled out. -/
theorem populateConfig_routes (wc : WorkerConfiguration) (config : Config)
    (oldApps : List (AppId × AppState)) (fetch : String → Option String) :
    (populateConfig wc config oldApps fetch).2
      = buildRoutingTable (collectAppsConfig config.apps) := rfl

/-- C4: get_instance dequeues from the front, discarding every instance whose
age since last_active exceeds instance_expiration_time_ms; the first survivor
gets last_active set to now and is returned; a queue that drains without a
survivor makes it spawn via spawn_worker on the registered runtime of minimum
load, ties broken by registry key order (smallest key among minimal loads);
and an empty registry fails with NoAvailableInstance. -/
theorem c4_get_instance (appId : AppId) (appCfg : WorkerConfiguration) (script : String)
    (config : Config) (clients : List (RuntimeId × RtState)) (queue : List ReadyInstance)
    (now : Nat) (spawnReply : Option WorkerHandle) :
    (∀ (inst : ReadyInstance) (rest : List ReadyInstance),
      dequeueUsable config now queue = (some inst, rest) →
      (∃ pre inst0, queue = pre ++ inst0 :: rest ∧
        (∀ i ∈ pre, is_usable i config now = false) ∧
        is_usable inst0 config now = true ∧
        inst = { inst0 with last_active := now }) ∧
      get_instance appId appCfg script config clients queue now spawnReply
        = (GetRes.got inst, rest, [])) ∧
    ((∀ i ∈ queue, is_usable i config now = false) →
      (clients = [] →
        get_instance appId appCfg script config clients queue now spawnReply
          = (GetRes.failedNoInstance, [], [])) ∧
      (clients.Pairwise (fun a b => a.1 < b.1) →
        ∀ (rtid : RuntimeId) (rt : RtState), selectRuntime clients = some (rtid, rt) →
          ((rtid, rt) ∈ clients ∧
           (∀ kv ∈ clients, rt.load ≤ kv.2.load ∧ (kv.2.load = rt.load → rtid ≤ kv.1)) ∧
           ∀ h, spawnReply = some h →
             get_instance appId appCfg script config clients queue now spawnReply
               = (GetRes.got (ReadyInstance.mk rtid now h), [],
                  [RpcCall.spawnCall rtid appId appCfg script])))) := by
  constructor
  · intro inst rest hd
    refine ⟨dequeueUsable_some config now queue inst rest hd, ?_⟩
    rw [get_instance, hd]
  · intro hall
    have hd : dequeueUsable config now queue = (none, []) :=
      dequeueUsable_all_expired config now queue hall
    constructor
    · intro hcl
      subst hcl
      rw [get_instance, hd]
      rfl
    · intro hp rtid rt hsel
      obtain ⟨hmem, hbound⟩ := selectRuntime_spec clients hp rtid rt hsel
      refine ⟨hmem, hbound, ?_⟩
      intro h hsp
      subst hsp
      rw [get_instance, hd, hsel]

/-- C4 (witness): an expired cached instance is discarded and the new worker is
spawned on the least-loaded runtime r2, not on the smaller-keyed but busier
r1. -/
theorem c4_get_instance_witness :
    get_instance "a" (WorkerConfiguration.mk "g") "s" (Config.mk [] 10 10 10)
      [("r1", RtState.mk 5), ("r2", RtState.mk 3)] [ReadyInstance.mk "rx" 0 "hx"]
      100 (some "h")
      = (GetRes.got (ReadyInstance.mk "r2" 100 "h"), [],
         [RpcCall.spawnCall "r2" "a" (WorkerConfiguration.mk "g") "s"]) := by
  have h := ((c4_get_instance "a" (WorkerConfiguration.mk "g") "s" (Config.mk [] 10 10 10)
    [("r1", RtState.mk 5), ("r2", RtState.mk 3)] [ReadyInstance.mk "rx" 0 "hx"]
    100 (some "h")).2 (by decide)).2
    (pairwise_pair _ _ _ (string_lt_of_data (by decide))) "r2" (RtState.mk 3) (by decide)
  exact h.2.2 "h" rfl

/-- A config with one app: id a, route (domain d, path-prefix /), script URL u,
and its own per-app worker configuration. -/
def oneAppCfg : Config :=
  Config.mk
    [AppConfig.mk "a" [AppRoute.mk "d" "/"] "u" (WorkerConfiguration.mk "per-app")]
    10 10 10

/-- C1: counterexample — populate_config stores the scheduler-wide
worker_config in the AppState, ignoring the application's own AppConfig.worker,
and get_instance forwards that stored configuration to spawn_worker: for an app
whose own worker configuration is per-app while the scheduler holds global, the
spawn RPC carries global. -/
theorem c1_worker_cfg_counterexample :
    (∀ ac ∈ oneAppCfg.apps, ac.worker = WorkerConfiguration.mk "per-app") ∧
    mapGet "a" (populateConfig (WorkerConfiguration.mk "global") oneAppCfg []
      (fun _ => some "code")).1
      = some (AppState.mk "a" (WorkerConfiguration.mk "global") "code" []) ∧
    (get_instance "a"
      (AppState.mk "a" (WorkerConfiguration.mk "global") "code" []).config
      (AppState.mk "a" (WorkerConfiguration.mk "global") "code" []).script
      (Config.mk [] 10 10 10) [("rt", RtState.mk 0)] [] 0 (some "h")).2.2
      = [RpcCall.spawnCall "rt" "a" (WorkerConfiguration.mk "global") "code"] ∧
    WorkerConfiguration.mk "global" ≠ WorkerConfiguration.mk "per-app" := by
  decide

/-- C1 (amended): every AppState created by populate_config carries the
scheduler-wide worker_config passed at construction — the per-app
AppConfig.worker is never consulted — and get_instance passes the AppState's
stored configuration to spawn_worker. -/
theorem c1_worker_cfg_amended :
    (∀ (wc : WorkerConfiguration) (config : Config) (oldApps : List (AppId × AppState))
      (fetch : String → Option String) (appid : AppId) (st : AppState),
      mapGet appid oldApps = none →
      mapGet appid (populateConfig wc config oldApps fetch).1 = some st →
      st.config = wc) ∧
    (∀ (appId : AppId) (appCfg : WorkerConfiguration) (script : String) (config : Config)
      (clients : List (RuntimeId × RtState)) (queue : List ReadyInstance) (now : Nat)
      (h : WorkerHandle) (rtid : RuntimeId) (rt : RtState),
      (∀ i ∈ queue, is_usable i config now = false) →
      selectRuntime clients = some (rtid, rt) →
      (get_instance appId appCfg script config clients queue now (some h)).2.2
        = [RpcCall.spawnCall rtid appId appCfg script]) := by
  constructor
  · intro wc config oldApps fetch appid st hold hget
    rw [populateConfig_apps] at hget
    have hmem := mapGet_mem appid st _ hget
    have hmem1 := List.mem_of_mem_filter hmem
    rcases mem_insertAll _ _ _ hmem1 with hin | hin
    · obtain ⟨b, hb, hgb⟩ := List.mem_filterMap.mp hin
      exact (mkUnseenState_shape wc fetch b (appid, st) hgb).2
    · exact absurd hold (mem_mapGet_ne_none appid st oldApps hin)
  · intro appId appCfg script config clients queue now h rtid rt hall hsel
    have hd := dequeueUsable_all_expired config now queue hall
    rw [get_instance, hd, hsel]

/-- C1 (witness): the amended theorem applied to the one-app config fetched
successfully, and to a concrete spawn against a one-runtime registry. -/
theorem c1_worker_cfg_amended_witness :
    (AppState.mk "a" (WorkerConfiguration.mk "global") "code" []).config
      = WorkerConfiguration.mk "global" ∧
    (get_instance "a" (WorkerConfiguration.mk "global") "code" (Config.mk [] 10 10 10)
      [("rt", RtState.mk 0)] [] 0 (some "h")).2.2
      = [RpcCall.spawnCall "rt" "a" (WorkerConfiguration.mk "global") "code"] := by
  constructor
  · exact c1_worker_cfg_amended.1 (WorkerConfiguration.mk "global") oneAppCfg []
      (fun _ => some "code") "a" (AppState.mk "a" (WorkerConfiguration.mk "global") "code" [])
      (by decide) (by decide)
  · exact c1_worker_cfg_amended.2 "a" (WorkerConfiguration.mk "global") "code"
      (Config.mk [] 10 10 10) [("rt", RtState.mk 0)] [] 0 "h" "rt" (RtState.mk 0)
      (by decide) (by decide)

/-- C2: counterexample — reconciling from an empty state with one app whose
script fetch fails leaves that app routed (the rebuilt route table resolves its
domain and path to the AppId) while the apps table does not contain it, so a
routed AppId can be absent from apps after populate. -/
theorem c2_routed_without_state_counterexample :
    mapGet "d" (populateConfig (WorkerConfiguration.mk "global") oneAppCfg []
      (fun _ => none)).2 = some [("/", "a")] ∧
    matchRoute [("/", "a")] "/x" = some "a" ∧
    (populateConfig (WorkerConfiguration.mk "global") oneAppCfg [] (fun _ => none)).1 = [] ∧
    mapGet "a" (populateConfig (WorkerConfiguration.mk "global") oneAppCfg []
      (fun _ => none)).1 = none := by
  decide

/-- C2 (amended): after populate, every AppId reachable through the installed
route table is an id of the new config; it has an AppState in the apps table
unless it is a newly added app whose script fetch failed during that
reconciliation; and a request that resolves to an AppId absent from apps (its
body having passed the size check) fails with NoRouteMapping at the apps
lookup rather than crashing. -/
theorem c2_routed_apps (wc : WorkerConfiguration) (config : Config)
    (oldApps : List (AppId × AppState)) (fetch : String → Option String) :
    (∀ (dom : String) (sub : PrefMap) (p : String) (a : AppId),
      mapGet dom (populateConfig wc config oldApps fetch).2 = some sub →
      (p, a) ∈ sub → ∃ ac, mapGet a (collectAppsConfig config.apps) = some ac) ∧
    (∀ (appid : AppId) (ac : AppConfig),
      mapGet appid (collectAppsConfig config.apps) = some ac →
      ((∃ st0, mapGet appid oldApps = some st0) ∨ (∃ body, fetch ac.script = some body)) →
      ∃ st, mapGet appid (populateConfig wc config oldApps fetch).1 = some st) ∧
    (∀ (sched : SchedState) (req : RequestModel) (now : Nat)
      (spawnO : Nat → Option WorkerHandle) (fetchO : Nat → FetchReply)
      (sub : PrefMap) (appid : AppId),
      mapGet (beforeColon (hostRaw req.hostHeader)) sched.route_mappings = some sub →
      matchRoute sub req.path = some appid →
      (drainBody sched.config.max_request_body_size_bytes req.bodyChunks).2 = none →
      mapGet appid sched.apps = none →
      handle_request sched req now spawnO fetchO
        = (Outcome.failure SchedError.NoRouteMapping, [])) := by
  refine ⟨?_, ?_, ?_⟩
  · intro dom sub p a hget hmem
    rw [populateConfig_routes, buildRoutingTable] at hget
    have ha : a ∈ (collectAppsConfig config.apps).map Prod.fst := by
      refine buildRoutingTable_values (collectAppsConfig config.apps) []
        ((collectAppsConfig config.apps).map Prod.fst)
        (fun kv hkv => List.mem_map_of_mem Prod.fst hkv) ?_ dom sub p a hget hmem
      intro d s q b hg _
      rw [mapGet] at hg
      exact absurd hg (by simp)
    exact mapGet_of_mem_keys a _ ha
  · intro appid ac hac hcase
    rw [populateConfig_apps,
      mapGet_filter appid (fun y => (mapGet y (collectAppsConfig config.apps)).isSome)]
    have hsome : (mapGet appid (collectAppsConfig config.apps)).isSome = true := by
      rw [hac]; rfl
    rw [if_pos hsome]
    cases hold : mapGet appid oldApps with
    | some st0 =>
      have hnotin : ∀ x ∈ ((collectAppsConfig config.apps).filter
          (fun kv => (mapGet kv.1 oldApps).isNone)).filterMap (mkUnseenState wc fetch),
          x.1 ≠ appid := by
        intro x hx hcon
        obtain ⟨b, hb, hgb⟩ := List.mem_filterMap.mp hx
        have hkey := (mkUnseenState_shape wc fetch b x hgb).1
        have hbf := List.of_mem_filter hb
        rw [← hkey, hcon, hold] at hbf
        simp at hbf
      rw [mapGet_insertAll_not_mem appid _ oldApps hnotin, hold]
      exact ⟨st0, rfl⟩
    | none =>
      rcases hcase with ⟨st0, hst0⟩ | ⟨body, hbody⟩
      · rw [hold] at hst0
        exact absurd hst0 (by simp)
      · have hmemn : (appid, ac) ∈ collectAppsConfig config.apps :=
          mapGet_mem appid ac _ hac
        have hmemu : (appid, ac) ∈ (collectAppsConfig config.apps).filter
            (fun kv => (mapGet kv.1 oldApps).isNone) := by
          refine List.mem_filter.mpr ⟨hmemn, ?_⟩
          rw [hold]
          rfl
        have hmemapp := mem_unseenApps wc fetch _ appid ac body hmemu hbody
        have hsorted : ((collectAppsConfig config.apps).filter
            (fun kv => (mapGet kv.1 oldApps).isNone)).Pairwise (fun a b => a.1 < b.1) :=
          List.Pairwise.sublist (List.filter_sublist _) (collectAppsConfig_sorted config.apps)
        have hpw := unseenApps_pairwise wc fetch _ hsorted
        exact ⟨_, mapGet_insertAll_mem appid _ _ oldApps hpw hmemapp⟩
  · intro sched req now spawnO fetchO sub appid hdom hpre hdrain happ
    simp only [handle_request, hdom, hpre, hdrain, happ]

/-- C2 (witness): with the script fetch succeeding the routed app does have
state, and a request resolving to an AppId with no state gets NoRouteMapping. -/
theorem c2_routed_apps_witness :
    (∃ st, mapGet "a" (populateConfig (WorkerConfiguration.mk "global") oneAppCfg []
      (fun _ => some "code")).1 = some st) ∧
    handle_request (SchedState.mk (Config.mk [] 0 0 1) (WorkerConfiguration.mk "g") [] []
        [("d", [("/", "a")])])
      (RequestModel.mk (some (HeaderBytes.utf8 "d")) "/x" []) 0 (fun _ => none)
      (fun _ => FetchReply.transportError)
      = (Outcome.failure SchedError.NoRouteMapping, []) := by
  have h := c2_routed_apps (WorkerConfiguration.mk "global") oneAppCfg []
    (fun _ => some "code")
  constructor
  · exact h.2.1 "a"
      (AppConfig.mk "a" [AppRoute.mk "d" "/"] "u" (WorkerConfiguration.mk "per-app"))
      (by decide) (Or.inr ⟨"code", rfl⟩)
  · exact h.2.2 (SchedState.mk (Config.mk [] 0 0 1) (WorkerConfiguration.mk "g") [] []
        [("d", [("/", "a")])])
      (RequestModel.mk (some (HeaderBytes.utf8 "d")) "/x" []) 0 (fun _ => none)
      (fun _ => FetchReply.transportError) [("/", "a")] "a"
      (by decide) (by decide) (by decide) (by decide)

end RustyWorkers
